import Mathlib

/-!
# Payroll TXT upload (`backend/server.js`): a shallow embedding

The development models the two pure helpers `toISODate` and `parseTxt` and the
`POST /upload` handler of `backend/server.js`, from the point where the file
content has been read as a string.

* A JavaScript string read with the `utf8` encoding is a sequence of Unicode
  scalar values; it is modelled as `List Char`.  Every separator used by the
  code (line feed, `|`, `/`) is a single UTF-16 code unit, so splitting by code
  unit and by scalar value agree.  `padStart` measures UTF-16 code units, which
  is modelled by `utf16Length`.
* The numeric built-ins `parseFloat` and `parseInt` return IEEE-754 doubles.
  They are kept abstract (`Numerics`): every theorem holds for any behaviour of
  those built-ins.
* The MySQL connection of `backend/bdd.js` is modelled as an explicit storage
  state with a fallible statement executor; the outcome of each statement
  (success with an insert id, or failure with an error) is chosen by an
  arbitrary `Engine`.
-/

namespace PayrollUpload

/-! ## JavaScript strings -/

/-- A JavaScript string, as a sequence of Unicode scalar values. -/
abbrev Str := List Char

/-- The line feed character, the separator of `content.split` in `parseTxt`. -/
def LF : Char := Char.ofNat 10

/-- The pipe character, the field separator. -/
def PIPE : Char := Char.ofNat 124

/-- The slash character, the separator of date components. -/
def SLASH : Char := Char.ofNat 47

/-- The hyphen-minus character used in the ISO date. -/
def DASH : Char := Char.ofNat 45

/-- The digit zero, the filler of `padStart`. -/
def ZERO : Char := Char.ofNat 48

/-- The characters removed by `String.prototype.trim`: ECMAScript `WhiteSpace`
(TAB, VT, FF, SP, NBSP, ZWNBSP and the Unicode category `Zs`) and
`LineTerminator` (LF, CR, LS, PS). -/
def isWhiteSpace (c : Char) : Bool :=
  let n := c.toNat
  n == 0x09 || n == 0x0A || n == 0x0B || n == 0x0C || n == 0x0D || n == 0x20 ||
  n == 0xA0 || n == 0x1680 || (0x2000 ≤ n && n ≤ 0x200A) || n == 0x2028 ||
  n == 0x2029 || n == 0x202F || n == 0x205F || n == 0x3000 || n == 0xFEFF

/-- The string without its leading white space (`trimStart`). -/
def trimStart : Str → Str
  | [] => []
  | c :: cs => if isWhiteSpace c then trimStart cs else c :: cs

/-- The string without its trailing white space (`trimEnd`). -/
def trimEnd : Str → Str
  | [] => []
  | c :: cs =>
    match trimEnd cs with
    | [] => if isWhiteSpace c then [] else [c]
    | r :: rs => c :: r :: rs

/-- The method `String.prototype.trim`. -/
def trim (s : Str) : Str := trimEnd (trimStart s)

/-- The method `String.prototype.split` with a one-character separator: the
pieces between the occurrences of `sep`, always at least one piece. -/
def split (sep : Char) : Str → List Str
  | [] => [[]]
  | c :: cs =>
    if c = sep then [] :: split sep cs
    else
      match split sep cs with
      | [] => [[c]]
      | piece :: pieces => (c :: piece) :: pieces

/-- The length of a string in UTF-16 code units (the `length` of a JavaScript
string): characters outside the Basic Multilingual Plane count twice. -/
def utf16Length (s : Str) : Nat :=
  (s.map (fun c => if c.toNat < 0x10000 then 1 else 2)).sum

/-- The method `String.prototype.padStart` with a one-character filler. -/
def padStart (s : Str) (target : Nat) (fill : Char) : Str :=
  List.replicate (target - utf16Length s) fill ++ s

/-! ## JavaScript values -/

/-- The JavaScript values an array access `parte[i]` or a destructuring can
produce in this program, together with `null`. -/
inductive JSVal where
  | undefined
  | null
  | str (s : Str)
  deriving DecidableEq, Repr

/-- Array indexing `xs[i]`: `undefined` past the end. -/
def index (xs : List Str) (i : Nat) : JSVal :=
  match xs.get? i with
  | some s => JSVal.str s
  | none => JSVal.undefined

/-- The conversion `String(v)`, also applied by template literals. -/
def toStr : JSVal → Str
  | JSVal.undefined => "undefined".toList
  | JSVal.null => "null".toList
  | JSVal.str s => s

/-- Truthiness of a value (`Boolean(v)`): only non-empty strings are truthy
among `undefined`, `null` and strings. -/
def truthy : JSVal → Bool
  | JSVal.str s => !s.isEmpty
  | _ => false

/-- The exceptions the parsing code can raise. -/
inductive JSError where
  | typeError
  deriving DecidableEq, Repr

/-- The numeric built-ins, kept abstract: `Num` stands for the JavaScript
Number type, `parseFloat` and `parseInt10` for `parseFloat(v)` and
`parseInt(v, 10)`, and `ofLength` for the Number holding an array length. -/
structure Numerics where
  Num : Type
  parseFloat : JSVal → Num
  parseInt10 : JSVal → Num
  ofLength : Nat → Num

/-! ## `toISODate` -/

/-- The function `toISODate(ddmmyyyy)`: calling `.split` on `undefined` or
`null` raises a `TypeError`; otherwise the first three trimmed components are
destructured (missing ones are `undefined`) and printed as year, month, day. -/
def toISODate : JSVal → Except JSError Str
  | JSVal.str s =>
    let parts := (split SLASH s).map trim
    let d := index parts 0
    let m := index parts 1
    let y := index parts 2
    let dd := padStart (toStr d) 2 ZERO
    let mm := padStart (toStr m) 2 ZERO
    Except.ok (toStr y ++ [DASH] ++ mm ++ [DASH] ++ dd)
  | _ => Except.error JSError.typeError

/-! ## `parseTxt` -/

/-- The object assigned to `header` in the `E` branch. -/
structure Header (B : Numerics) where
  rnc_empresa : JSVal
  banco_destino : JSVal
  fecha_pago : Str
  monto_total : B.Num
  cuenta_origen : JSVal

/-- The object pushed to `details` in the `D` branch. -/
structure Detail (B : Numerics) where
  cedula : JSVal
  correo : JSVal
  cuenta_bancaria : JSVal
  monto : B.Num

/-- The object assigned to `summary` in the `S` branch. -/
structure Summary (B : Numerics) where
  cantidad_registros : B.Num

/-- The value returned by `parseTxt`; `none` stands for `null`. -/
structure Parsed (B : Numerics) where
  header : Option (Header B)
  details : List (Detail B)
  summary : Option (Summary B)

/-- The tag letters. -/
def tagE : Str := [Char.ofNat 69]

/-- The tag of detail lines. -/
def tagD : Str := [Char.ofNat 68]

/-- The tag of summary lines. -/
def tagS : Str := [Char.ofNat 83]

/-- The first statement of `parseTxt`: the lines of the content, trimmed, the
empty ones dropped (`filter(Boolean)`). -/
def contentLines (content : Str) : List Str :=
  ((split LF content).map trim).filter (fun l => !l.isEmpty)

/-- The fields of a retained line: `line.split('|').map(x => x.trim())`. -/
def lineParts (line : Str) : List Str := (split PIPE line).map trim

/-- The header object literal of the `E` branch; it raises when `toISODate`
does. -/
def buildHeader (B : Numerics) (parte : List Str) : Except JSError (Header B) :=
  match toISODate (index parte 3) with
  | Except.error e => Except.error e
  | Except.ok fecha =>
    Except.ok
      { rnc_empresa := index parte 1
        banco_destino := index parte 2
        fecha_pago := fecha
        monto_total := B.parseFloat (index parte 4)
        cuenta_origen := index parte 5 }

/-- The detail object literal of the `D` branch. -/
def buildDetail (B : Numerics) (parte : List Str) : Detail B :=
  { cedula := index parte 1
    correo := index parte 2
    cuenta_bancaria := index parte 3
    monto := B.parseFloat (index parte 4) }

/-- The summary object literal of the `S` branch. -/
def buildSummary (B : Numerics) (parte : List Str) : Summary B :=
  { cantidad_registros := B.parseInt10 (index parte 1) }

/-- The tag dispatch of the loop body, on the fields `parte` of a line. -/
def dispatch (B : Numerics) (acc : Parsed B) (parte : List Str) : Except JSError (Parsed B) :=
  let tag := index parte 0
  if tag = JSVal.str tagE then
    match buildHeader B parte with
    | Except.error e => Except.error e
    | Except.ok h => Except.ok { acc with header := some h }
  else if tag = JSVal.str tagD then
    Except.ok { acc with details := acc.details ++ [buildDetail B parte] }
  else if tag = JSVal.str tagS then
    Except.ok { acc with summary := some (buildSummary B parte) }
  else
    Except.ok acc

/-- One iteration of the `for` loop of `parseTxt` on a retained line: split
the line into trimmed fields, then dispatch on the tag. -/
def parseStep (B : Numerics) (acc : Parsed B) (line : Str) : Except JSError (Parsed B) :=
  dispatch B acc (lineParts line)

/-- The `for` loop of `parseTxt`: the iterations in order, stopping at the
first exception. -/
def parseLoop (B : Numerics) : Parsed B → List Str → Except JSError (Parsed B)
  | acc, [] => Except.ok acc
  | acc, line :: rest =>
    match parseStep B acc line with
    | Except.error e => Except.error e
    | Except.ok acc1 => parseLoop B acc1 rest

/-- The function `parseTxt(content)`. -/
def parseTxt (B : Numerics) (content : Str) : Except JSError (Parsed B) :=
  parseLoop B { header := none, details := [], summary := none } (contentLines content)

/-! ## Storage -/

/-- The parameter array of the `INSERT INTO nomina` statement (`paramsNomina`). -/
structure NominaRow (B : Numerics) where
  rnc_empresa : JSVal
  banco_destino : JSVal
  fecha_pago : Str
  monto_total : B.Num
  cuenta_origen : JSVal
  cantidad_registros : B.Num

/-- One element of `values`, a row of the bulk `INSERT INTO detalle`. -/
structure DetalleRow (B : Numerics) where
  id_nomina : Nat
  cedula : JSVal
  correo : JSVal
  cuenta_bancaria : JSVal
  monto : B.Num

/-- The two statements the handler sends through `bdd.query`. -/
inductive Query (B : Numerics) where
  | insertNomina (params : NominaRow B)
  | insertDetalle (values : List (DetalleRow B))

/-- The error object a failed statement hands to the callback: its optional
`sqlMessage` property and its string conversion `String(err)`. -/
structure SqlError where
  sqlMessage : JSVal
  asString : Str
  deriving DecidableEq, Repr

/-- The content of the two tables: the `nomina` rows with their generated
identifiers, and the `detalle` rows. -/
structure Storage (B : Numerics) where
  nomina : List (Nat × NominaRow B)
  detalle : List (DetalleRow B)

/-- The behaviour of the storage engine: for a storage content and a
statement, either a failure with its error object or a success with the
`insertId` of the result. -/
abbrev Engine (B : Numerics) := Storage B → Query B → Except SqlError Nat

/-- The effect of a statement on the tables: a successful insert appends its
rows (the `nomina` row under the generated identifier), a failed statement
leaves the tables as they were. -/
def Storage.apply {B : Numerics} (st : Storage B) (q : Query B) :
    Except SqlError Nat → Storage B
  | Except.error _ => st
  | Except.ok id =>
    match q with
    | Query.insertNomina params => { st with nomina := st.nomina ++ [(id, params)] }
    | Query.insertDetalle values => { st with detalle := st.detalle ++ values }

/-! ## The `/upload` handler -/

/-- The values of the fields of a JSON response body. -/
inductive Json where
  | bool (b : Bool)
  | str (s : Str)
  | num (n : Nat)
  deriving DecidableEq, Repr

/-- An HTTP response: the status code and the fields of the JSON body, in the
order of the object literal. -/
structure Response where
  status : Nat
  body : List (String × Json)
  deriving DecidableEq, Repr

/-- The outcome of one request: the response, the storage content afterwards,
and the statements issued through `bdd.query`, in order, each with the outcome
the engine gave it. -/
structure Run (B : Numerics) where
  response : Response
  storage : Storage B
  issued : List (Query B × Except SqlError Nat)

/-- The message of the header check. -/
def msgNoHeader : Str := "Encabezado E no encontrado en el TXT".toList

/-- The message of the `catch` block. -/
def msgBadFormat : Str := "Formato del TXT inválido o inesperado".toList

/-- The step tag of a failed `nomina` insert. -/
def stepNomina : Str := "insert_nomina".toList

/-- The step tag of a failed `detalle` insert. -/
def stepDetalle : Str := "insert_detalle".toList

/-- The expression `err.sqlMessage || String(err)`. -/
def errorText (e : SqlError) : Str :=
  if truthy e.sqlMessage then toStr e.sqlMessage else e.asString

/-- The body `{ ok: false, error }` of the 400 responses. -/
def errorBody (msg : Str) : List (String × Json) :=
  [("ok", Json.bool false), ("error", Json.str msg)]

/-- The body `{ ok: false, step, error }` of the 500 responses. -/
def stepErrorBody (step : Str) (e : SqlError) : List (String × Json) :=
  [("ok", Json.bool false), ("step", Json.str step), ("error", Json.str (errorText e))]

/-- The body `{ ok: true, nomina_id, registros_insertados }` of a success. -/
def successBody (id count : Nat) : List (String × Json) :=
  [("ok", Json.bool true), ("nomina_id", Json.num id), ("registros_insertados", Json.num count)]

/-- The expression `summary ? summary.cantidad_registros : details.length`: an
object is truthy whatever its field holds. -/
def cantidad {B : Numerics} (p : Parsed B) : B.Num :=
  match p.summary with
  | some s => s.cantidad_registros
  | none => B.ofLength p.details.length

/-- The array `paramsNomina`. -/
def paramsNomina {B : Numerics} (h : Header B) (p : Parsed B) : NominaRow B :=
  { rnc_empresa := h.rnc_empresa
    banco_destino := h.banco_destino
    fecha_pago := h.fecha_pago
    monto_total := h.monto_total
    cuenta_origen := h.cuenta_origen
    cantidad_registros := cantidad p }

/-- The expression `d.correo && d.correo.length > 0 ? d.correo : null`. -/
def correoOrNull (correo : JSVal) : JSVal :=
  match correo with
  | JSVal.str s => if 0 < utf16Length s then JSVal.str s else JSVal.null
  | _ => JSVal.null

/-- The mapping of `details.map` that builds `values`. -/
def detalleRow {B : Numerics} (id_nomina : Nat) (d : Detail B) : DetalleRow B :=
  { id_nomina := id_nomina
    cedula := d.cedula
    correo := correoOrNull d.correo
    cuenta_bancaria := d.cuenta_bancaria
    monto := d.monto }

/-- The callback of the `nomina` insert together with the `detalle` insert it
may start: phase 2 of the handler, entered with the generated identifier. -/
def insertDetails {B : Numerics} (engine : Engine B) (st : Storage B) (id_nomina : Nat)
    (details : List (Detail B)) (log : List (Query B × Except SqlError Nat)) : Run B :=
  if details.length = 0 then
    { response := { status := 200, body := successBody id_nomina 0 }
      storage := st
      issued := log }
  else
    let q := Query.insertDetalle (details.map (detalleRow id_nomina))
    let out := engine st q
    match out with
    | Except.error errDet =>
      { response := { status := 500, body := stepErrorBody stepDetalle errDet }
        storage := st.apply q out
        issued := log ++ [(q, out)] }
    | Except.ok _ =>
      { response := { status := 200, body := successBody id_nomina details.length }
        storage := st.apply q out
        issued := log ++ [(q, out)] }

/-- The body of the `readFile` callback of `app.post('/upload')` on a file
content that was read: parse, check the header, insert the `nomina` row, then
the `detalle` rows; an exception of `parseTxt` is answered by the `catch`
block. -/
def upload (B : Numerics) (engine : Engine B) (st : Storage B) (content : Str) : Run B :=
  match parseTxt B content with
  | Except.error _ =>
    { response := { status := 400, body := errorBody msgBadFormat }
      storage := st
      issued := [] }
  | Except.ok p =>
    match p.header with
    | none =>
      { response := { status := 400, body := errorBody msgNoHeader }
        storage := st
        issued := [] }
    | some header =>
      let q := Query.insertNomina (paramsNomina header p)
      let out := engine st q
      match out with
      | Except.error errNom =>
        { response := { status := 500, body := stepErrorBody stepNomina errNom }
          storage := st.apply q out
          issued := [(q, out)] }
      | Except.ok id_nomina =>
        insertDetails engine (st.apply q out) id_nomina p.details [(q, out)]

/-! ## A reference instance of the numeric built-ins -/

/-- A Number kept as the call that computes it: the free interpretation of the
numeric built-ins, used to evaluate the model on concrete inputs. -/
inductive SymNum where
  | parseFloat (v : JSVal)
  | parseInt10 (v : JSVal)
  | ofLength (n : Nat)
  deriving DecidableEq, Repr

/-- The numeric built-ins interpreted freely. -/
def symbolic : Numerics :=
  { Num := SymNum
    parseFloat := SymNum.parseFloat
    parseInt10 := SymNum.parseInt10
    ofLength := SymNum.ofLength }

/-! ## Vocabulary of the specification

The claims speak of the lines of the content and of their pipe-delimited
fields.  A line is a piece of the content between line feeds, as it stands in
the content (not yet trimmed); its fields are the pieces between pipes. -/

/-- The first trimmed pipe-delimited field of a line: its tag. -/
def firstField (l : Str) : Str :=
  match split PIPE l with
  | [] => []
  | f :: _ => trim f

/-- The lines of the content carrying the tag `t`, in input order. -/
def taggedLines (t : Str) (content : Str) : List Str :=
  (split LF content).filter (fun l => firstField l == t)

/-- The strings made of white space only (the empty string included). -/
def allWhiteSpace (w : Str) : Bool := w.all isWhiteSpace

/-- The decimal digits `0` to `9`. -/
def isDecimalDigit (c : Char) : Bool := 48 ≤ c.toNat && c.toNat ≤ 57

/-- A string of decimal digits. -/
def allDigits (s : Str) : Bool := s.all isDecimalDigit

/-- A string of one or two characters left-padded with `0` to two. -/
def zeroPad2 (s : Str) : Str := if s.length = 1 then ZERO :: s else s

/-- The email the specification stores for a `D` line: absent (`null`) when
field 2 is missing or empty after trimming, the trimmed field otherwise. -/
def storedEmail (l : Str) : JSVal :=
  match (split PIPE l).get? 2 with
  | some f => if trim f = [] then JSVal.null else JSVal.str (trim f)
  | none => JSVal.null

/-- The content as a document: its lines, each as its list of fields, all as
they stand in the content. -/
def rawDoc (content : Str) : List (List Str) := (split LF content).map (split PIPE)

/-- One white-space edit of a document: inserting a line made of white space
only, or surrounding one field of one line with white space.  (Surrounding a
line with white space is surrounding its first field on the left and its last
field on the right.) -/
inductive WsEdit : List (List Str) → List (List Str) → Prop where
  | blankLine (before after : List (List Str)) (w : Str) :
      allWhiteSpace w = true → WsEdit (before ++ after) (before ++ [w] :: after)
  | padField (before after : List (List Str)) (left right : List Str) (f w1 w2 : Str) :
      allWhiteSpace w1 = true → allWhiteSpace w2 = true →
      WsEdit (before ++ (left ++ f :: right) :: after)
        (before ++ (left ++ (w1 ++ f ++ w2) :: right) :: after)

/-- The loop of `parseTxt` run on a document: each line is given by its
fields, which are trimmed and dispatched on. -/
def docLoop (B : Numerics) : Parsed B → List (List Str) → Except JSError (Parsed B)
  | acc, [] => Except.ok acc
  | acc, fields :: rest =>
    match dispatch B acc (fields.map trim) with
    | Except.error e => Except.error e
    | Except.ok acc1 => docLoop B acc1 rest

/-- The field `key` of a response body holds the number `n`. -/
def carriesNumber (body : List (String × Json)) (n : Nat) : Prop :=
  ∃ key, (key, Json.num n) ∈ body

/-! ## Concrete inputs -/

/-- The content of end-to-end scenario 1 of the specification. -/
def scenario1 : Str :=
  ("E|101202123|BHD|15/03/2024|50000.00|CTA001\n" ++
   "D|00112345678|a@x.com|ACC1|25000.00\n" ++
   "D|00198765432||ACC2|25000.00\n" ++
   "S|2").toList

/-- The header `parseTxt` builds from `scenario1`. -/
def scenario1Header : Header symbolic :=
  { rnc_empresa := JSVal.str "101202123".toList
    banco_destino := JSVal.str "BHD".toList
    fecha_pago := "2024-03-15".toList
    monto_total := SymNum.parseFloat (JSVal.str "50000.00".toList)
    cuenta_origen := JSVal.str "CTA001".toList }

/-- The value `parseTxt` returns on `scenario1`. -/
def scenario1Parsed : Parsed symbolic :=
  { header := some scenario1Header
    details :=
      [ { cedula := JSVal.str "00112345678".toList
          correo := JSVal.str "a@x.com".toList
          cuenta_bancaria := JSVal.str "ACC1".toList
          monto := SymNum.parseFloat (JSVal.str "25000.00".toList) },
        { cedula := JSVal.str "00198765432".toList
          correo := JSVal.str []
          cuenta_bancaria := JSVal.str "ACC2".toList
          monto := SymNum.parseFloat (JSVal.str "25000.00".toList) } ]
    summary := some { cantidad_registros := SymNum.parseInt10 (JSVal.str "2".toList) } }

/-- The `E` line of scenario 1 alone (scenario 2). -/
def headerOnlyContent : Str := "E|101202123|BHD|15/03/2024|50000.00|CTA001".toList

/-- The value `parseTxt` returns on `headerOnlyContent`. -/
def headerOnlyParsed : Parsed symbolic :=
  { header := some scenario1Header, details := [], summary := none }

/-- A content with `D` and `S` lines and no `E` line (scenario 3). -/
def noHeaderContent : Str := "D|00112345678|a@x.com|ACC1|25000.00\nS|1".toList

/-- A content whose `E` line has three fields only, next to a complete one. -/
def shortHeaderContent : Str := "E|101202123|BHD|15/03/2024|50000.00|CTA001\nE|1|2".toList

/-- The storage with both tables empty. -/
def emptyStorage : Storage symbolic := { nomina := [], detalle := [] }

/-- The error object of the failing statements below. -/
def demoError : SqlError :=
  { sqlMessage := JSVal.str "Duplicate entry".toList
    asString := "Error: Duplicate entry".toList }

/-- An engine that accepts the `nomina` insert with identifier 7 and rejects
the `detalle` insert. -/
def engineFailDetalle : Engine symbolic := fun _ q =>
  match q with
  | Query.insertNomina _ => Except.ok 7
  | Query.insertDetalle _ => Except.error demoError

/-- An engine that rejects the `nomina` insert. -/
def engineFailNomina : Engine symbolic := fun _ q =>
  match q with
  | Query.insertNomina _ => Except.error demoError
  | Query.insertDetalle _ => Except.ok 1

/-- An engine that accepts both statements, the `nomina` insert with
identifier 7. -/
def engineOk : Engine symbolic := fun _ q =>
  match q with
  | Query.insertNomina _ => Except.ok 7
  | Query.insertDetalle _ => Except.ok 1

/-- A content whose `S` line declares 0 records next to one `D` line. -/
def zeroCountContent : Str := "E|1|BHD|1/2/2024|5|CTA\nD|2||ACC|5\nS|0".toList

/-- The header `parseTxt` builds from `zeroCountContent`. -/
def zeroCountHeader : Header symbolic :=
  { rnc_empresa := JSVal.str "1".toList
    banco_destino := JSVal.str "BHD".toList
    fecha_pago := "2024-02-01".toList
    monto_total := SymNum.parseFloat (JSVal.str "5".toList)
    cuenta_origen := JSVal.str "CTA".toList }

/-- The value `parseTxt` returns on `zeroCountContent`. -/
def zeroCountParsed : Parsed symbolic :=
  { header := some zeroCountHeader
    details :=
      [ { cedula := JSVal.str "2".toList
          correo := JSVal.str []
          cuenta_bancaria := JSVal.str "ACC".toList
          monto := SymNum.parseFloat (JSVal.str "5".toList) } ]
    summary := some { cantidad_registros := SymNum.parseInt10 (JSVal.str "0".toList) } }

/-- Scenario 1 preceded by an older `E` line and a line tagged `X`. -/
def ignoredLineContent : Str :=
  "E|9|OLD|01/01/2020|1|X\nX|ignored|line\n".toList ++ scenario1

/-- The content `ignoredLineContent` without its line tagged `X`. -/
def withoutIgnoredLine : Str := "E|9|OLD|01/01/2020|1|X\n".toList ++ scenario1

/-- The lines of scenario 1 after the first one. -/
def scenario1Tail : Str :=
  ("D|00112345678|a@x.com|ACC1|25000.00\n" ++
   "D|00198765432||ACC2|25000.00\n" ++
   "S|2").toList

/-- Scenario 1 with blanks around its first line, followed by an empty line
and a line of blanks. -/
def paddedScenario1 : Str :=
  "  E |101202123|BHD|15/03/2024|50000.00|CTA001 \n\n   \n".toList ++ scenario1Tail

/-! ## Lemmas on strings -/

theorem split_ne_nil (sep : Char) (s : Str) : split sep s ≠ [] := by
  cases s with
  | nil => simp [split]
  | cons c cs =>
    unfold split
    split_ifs
    · simp
    · split <;> simp

theorem isWhiteSpace_PIPE : isWhiteSpace PIPE = false := by decide

theorem isWhiteSpace_SLASH : isWhiteSpace SLASH = false := by decide

theorem isWhiteSpace_of_digit {c : Char} (h : isDecimalDigit c = true) :
    isWhiteSpace c = false := by
  simp only [isDecimalDigit, Bool.and_eq_true, decide_eq_true_eq] at h
  simp only [isWhiteSpace, Bool.or_eq_false_iff, Bool.and_eq_false_iff, beq_eq_false_iff_ne,
    decide_eq_false_iff_not]
  omega

theorem ne_SLASH_of_digit {c : Char} (h : isDecimalDigit c = true) : c ≠ SLASH := by
  intro hc
  subst hc
  exact absurd h (by decide)

theorem ne_of_isWhiteSpace {c sep : Char} (h : isWhiteSpace c = true)
    (hs : isWhiteSpace sep = false) : c ≠ sep := by
  intro hc
  subst hc
  simp [h] at hs

theorem trimStart_of_all {w : Str} (hw : allWhiteSpace w = true) : trimStart w = [] := by
  induction w with
  | nil => rfl
  | cons c cs ih =>
    simp only [allWhiteSpace, List.all_cons, Bool.and_eq_true] at hw
    simp [trimStart, hw.1, ih (by simpa [allWhiteSpace] using hw.2)]

theorem trimEnd_of_all {w : Str} (hw : allWhiteSpace w = true) : trimEnd w = [] := by
  induction w with
  | nil => rfl
  | cons c cs ih =>
    simp only [allWhiteSpace, List.all_cons, Bool.and_eq_true] at hw
    simp [trimEnd, hw.1, ih (by simpa [allWhiteSpace] using hw.2)]

theorem trimStart_ws_append {w : Str} (hw : allWhiteSpace w = true) (s : Str) :
    trimStart (w ++ s) = trimStart s := by
  induction w with
  | nil => rfl
  | cons c cs ih =>
    simp only [allWhiteSpace, List.all_cons, Bool.and_eq_true] at hw
    simp [trimStart, hw.1, ih (by simpa [allWhiteSpace] using hw.2)]

theorem trimEnd_append_ws {w : Str} (hw : allWhiteSpace w = true) (s : Str) :
    trimEnd (s ++ w) = trimEnd s := by
  induction s with
  | nil => simpa [trimEnd] using trimEnd_of_all hw
  | cons c cs ih => simp [trimEnd, ih]

theorem trim_append_ws {w : Str} (hw : allWhiteSpace w = true) (s : Str) :
    trim (s ++ w) = trim s := by
  induction s with
  | nil => simp [trim, trimStart, trimEnd, trimStart_of_all hw]
  | cons c cs ih =>
    by_cases hc : isWhiteSpace c = true
    · simpa [trim, trimStart, hc] using ih
    · simp only [trim, List.cons_append, trimStart, hc]
      simpa using trimEnd_append_ws hw (c :: cs)

theorem trim_of_all {w : Str} (hw : allWhiteSpace w = true) : trim w = [] := by
  simp [trim, trimStart_of_all hw, trimEnd]

/-- Surrounding a string with white space does not change its trimmed form. -/
theorem trim_pad {w1 w2 : Str} (h1 : allWhiteSpace w1 = true) (h2 : allWhiteSpace w2 = true)
    (s : Str) : trim (w1 ++ s ++ w2) = trim s := by
  rw [trim_append_ws h2]
  simp [trim, trimStart_ws_append h1]

/-- A string is its leading white space followed by the rest. -/
theorem trimStart_decomp (s : Str) :
    ∃ w, allWhiteSpace w = true ∧ s = w ++ trimStart s := by
  induction s with
  | nil => exact ⟨[], rfl, rfl⟩
  | cons c cs ih =>
    by_cases hc : isWhiteSpace c = true
    · obtain ⟨w, hw, hs⟩ := ih
      refine ⟨c :: w, ?_, ?_⟩
      · simpa [allWhiteSpace, hc] using hw
      · simp only [trimStart, hc, if_true, List.cons_append]
        rw [← hs]
    · exact ⟨[], rfl, by simp [trimStart, hc]⟩

/-- A string is its trimmed end followed by its trailing white space. -/
theorem trimEnd_decomp (s : Str) :
    ∃ w, allWhiteSpace w = true ∧ s = trimEnd s ++ w := by
  induction s with
  | nil => exact ⟨[], rfl, rfl⟩
  | cons c cs ih =>
    obtain ⟨w, hw, hs⟩ := ih
    cases hr : trimEnd cs with
    | nil =>
      rw [hr] at hs
      by_cases hc : isWhiteSpace c = true
      · refine ⟨c :: cs, ?_, ?_⟩
        · rw [hs]
          simpa [allWhiteSpace, hc] using hw
        · simp [trimEnd, hr, hc]
      · refine ⟨cs, ?_, ?_⟩
        · rw [hs]; simpa using hw
        · simp [trimEnd, hr, hc]
    | cons r rs =>
      refine ⟨w, hw, ?_⟩
      rw [hr] at hs
      simp only [trimEnd, hr, List.cons_append]
      rw [← List.cons_append, ← hs]

/-- A string is its trimmed form surrounded by white space. -/
theorem trim_decomp (s : Str) :
    ∃ w1 w2, allWhiteSpace w1 = true ∧ allWhiteSpace w2 = true ∧ s = w1 ++ trim s ++ w2 := by
  obtain ⟨w1, h1, hs⟩ := trimStart_decomp s
  obtain ⟨w2, h2, ht⟩ := trimEnd_decomp (trimStart s)
  refine ⟨w1, w2, h1, h2, ?_⟩
  rw [List.append_assoc]
  unfold trim
  rw [← ht, ← hs]

theorem split_of_not_mem {sep : Char} {a : Str} (h : sep ∉ a) : split sep a = [a] := by
  induction a with
  | nil => rfl
  | cons c cs ih =>
    simp only [List.mem_cons, not_or] at h
    have hc : c ≠ sep := fun e => h.1 e.symm
    simp [split, hc, ih h.2]

theorem split_append_left {sep : Char} {a : Str} (h : sep ∉ a) {b x : Str} {xs : List Str}
    (hb : split sep b = x :: xs) : split sep (a ++ b) = (a ++ x) :: xs := by
  induction a with
  | nil => simpa using hb
  | cons c cs ih =>
    simp only [List.mem_cons, not_or] at h
    have hc : c ≠ sep := fun e => h.1 e.symm
    simp [split, hc, ih h.2]

theorem split_append_right {sep : Char} {b : Str} (h : sep ∉ b) (a : Str) :
    ∀ (xs : List Str) (x : Str), split sep a = xs ++ [x] →
      split sep (a ++ b) = xs ++ [x ++ b] := by
  induction a with
  | nil =>
    intro xs x hx
    cases xs with
    | nil =>
      simp only [split, List.nil_append, List.cons.injEq, and_true] at hx
      subst hx
      simpa using split_of_not_mem h
    | cons y ys =>
      simp only [split, List.cons_append, List.cons.injEq] at hx
      exact absurd hx.2 (by simp)
  | cons c cs ih =>
    intro xs x hx
    by_cases hc : c = sep
    · simp only [split, hc, if_true] at hx
      cases xs with
      | nil =>
        simp only [List.nil_append, List.cons.injEq] at hx
        exact absurd hx.2 (split_ne_nil sep cs)
      | cons y ys =>
        simp only [List.cons_append, List.cons.injEq] at hx
        simp [split, hc, ih ys x hx.2, ← hx.1]
    · cases hs : split sep cs with
      | nil => exact absurd hs (split_ne_nil sep cs)
      | cons p ps =>
        simp only [split, hc, if_false, hs] at hx
        cases xs with
        | nil =>
          simp only [List.nil_append, List.cons.injEq] at hx
          obtain ⟨hx1, hx2⟩ := hx
          subst hx1 hx2
          have := ih [] p (by simpa using hs)
          simp [split, hc, this]
        | cons y ys =>
          simp only [List.cons_append, List.cons.injEq] at hx
          obtain ⟨hx1, hx2⟩ := hx
          subst hx1 hx2
          have := ih (p :: ys) x (by simpa using hs)
          simp [split, hc, this]

theorem not_mem_of_all {sep : Char} (hs : isWhiteSpace sep = false) {w : Str}
    (hw : allWhiteSpace w = true) : sep ∉ w := by
  intro hmem
  simp only [allWhiteSpace, List.all_eq_true] at hw
  have := hw sep hmem
  simp [hs] at this

/-- Surrounding a line with white space does not change its trimmed fields. -/
theorem lineParts_pad {w1 w2 : Str} (h1 : allWhiteSpace w1 = true)
    (h2 : allWhiteSpace w2 = true) (s : Str) :
    lineParts (w1 ++ s ++ w2) = lineParts s := by
  unfold lineParts
  rcases List.eq_nil_or_concat (split PIPE s) with hnil | ⟨xs, x, hx⟩
  · exact absurd hnil (split_ne_nil PIPE s)
  · rw [List.concat_eq_append] at hx
    have hr := split_append_right (not_mem_of_all isWhiteSpace_PIPE h2) s xs x hx
    cases hq : split PIPE (s ++ w2) with
    | nil => exact absurd hq (split_ne_nil PIPE _)
    | cons q qs =>
      have hl := split_append_left (not_mem_of_all isWhiteSpace_PIPE h1) hq
      rw [List.append_assoc, hl]
      have e1 : trim (w1 ++ q) = trim q := by simpa using @trim_pad w1 [] h1 rfl q
      rw [List.map_cons, e1, ← List.map_cons, ← hq, hr, hx]
      simp [trim_append_ws h2]

/-- Trimming a line before splitting it does not change its trimmed fields. -/
theorem lineParts_trim (l : Str) : lineParts (trim l) = lineParts l := by
  obtain ⟨w1, w2, h1, h2, hl⟩ := trim_decomp l
  conv_rhs => rw [hl]
  exact (lineParts_pad h1 h2 (trim l)).symm

theorem lineParts_nil : lineParts [] = [[]] := by rfl

theorem index_zero_lineParts (l : Str) : index (lineParts l) 0 = JSVal.str (firstField l) := by
  unfold lineParts firstField index
  cases h : split PIPE l with
  | nil => exact absurd h (split_ne_nil PIPE l)
  | cons f fs => simp

theorem firstField_of_trim_nil {l : Str} (h : trim l = []) : firstField l = [] := by
  have h0 := index_zero_lineParts l
  rw [← lineParts_trim, h] at h0
  simpa [lineParts_nil, index] using h0.symm

/-! ## Lemmas on `parseTxt` -/

theorem tagE_ne_tagD : tagE ≠ tagD := by decide

theorem tagE_ne_tagS : tagE ≠ tagS := by decide

theorem tagD_ne_tagS : tagD ≠ tagS := by decide

theorem parseStep_trim (B : Numerics) (acc : Parsed B) (l : Str) :
    parseStep B acc (trim l) = parseStep B acc l := by
  simp [parseStep, lineParts_trim]

/-- The loop body in terms of the tag of the line. -/
theorem parseStep_eq (B : Numerics) (acc : Parsed B) (l : Str) :
    parseStep B acc l =
      if firstField l = tagE then
        match buildHeader B (lineParts l) with
        | Except.error e => Except.error e
        | Except.ok h => Except.ok { acc with header := some h }
      else if firstField l = tagD then
        Except.ok { acc with details := acc.details ++ [buildDetail B (lineParts l)] }
      else if firstField l = tagS then
        Except.ok { acc with summary := some (buildSummary B (lineParts l)) }
      else Except.ok acc := by
  simp only [parseStep, dispatch, index_zero_lineParts, JSVal.str.injEq]

theorem parseStep_ignored (B : Numerics) (acc : Parsed B) {l : Str}
    (hE : firstField l ≠ tagE) (hD : firstField l ≠ tagD) (hS : firstField l ≠ tagS) :
    parseStep B acc l = Except.ok acc := by
  simp [parseStep_eq, hE, hD, hS]

theorem parseStep_blank (B : Numerics) (acc : Parsed B) {l : Str} (h : trim l = []) :
    parseStep B acc l = Except.ok acc := by
  have hf := firstField_of_trim_nil h
  apply parseStep_ignored <;> rw [hf] <;> decide

/-- Trimming the lines and dropping the empty ones does not change the loop. -/
theorem parseLoop_trim_filter (B : Numerics) (ls : List Str) :
    ∀ acc : Parsed B,
      parseLoop B acc ((ls.map trim).filter (fun l => !l.isEmpty)) = parseLoop B acc ls := by
  induction ls with
  | nil => intro acc; rfl
  | cons l rest ih =>
    intro acc
    by_cases h : trim l = []
    · simp only [List.map_cons, h, List.isEmpty_nil, Bool.not_true, Bool.false_eq_true,
        not_false_eq_true, List.filter_cons_of_neg, parseLoop, parseStep_blank B acc h]
      exact ih acc
    · have hne : (trim l).isEmpty = false := by
        cases ht : trim l with
        | nil => exact absurd ht h
        | cons a as => rfl
      simp only [List.map_cons, List.filter_cons, hne, Bool.not_false, if_true, parseLoop,
        parseStep_trim]
      cases parseStep B acc l with
      | error e => rfl
      | ok acc1 => exact ih acc1

/-- The function `parseTxt` is the loop over the lines of the content as they
stand. -/
theorem parseTxt_eq (B : Numerics) (c : Str) :
    parseTxt B c = parseLoop B { header := none, details := [], summary := none } (split LF c) := by
  simp [parseTxt, contentLines, parseLoop_trim_filter]

theorem parseLoop_append (B : Numerics) (xs ys : List Str) :
    ∀ acc : Parsed B,
      parseLoop B acc (xs ++ ys) =
        match parseLoop B acc xs with
        | Except.error e => Except.error e
        | Except.ok acc1 => parseLoop B acc1 ys := by
  induction xs with
  | nil => intro acc; rfl
  | cons x rest ih =>
    intro acc
    simp only [List.cons_append, parseLoop]
    cases parseStep B acc x with
    | error e => rfl
    | ok acc1 => exact ih acc1

theorem length_lineParts (l : Str) : (lineParts l).length = (split PIPE l).length := by
  simp [lineParts]

theorem index_eq_undefined_iff (xs : List Str) (i : Nat) :
    index xs i = JSVal.undefined ↔ xs.length ≤ i := by
  unfold index
  cases h : xs.get? i with
  | none => simpa using List.get?_eq_none.mp h
  | some s =>
    have := (List.get?_eq_some.mp h).1
    simp; omega

theorem index_ne_null (xs : List Str) (i : Nat) : index xs i ≠ JSVal.null := by
  unfold index
  cases xs.get? i <;> simp

/-- The header literal raises exactly on fewer than four fields. -/
theorem buildHeader_error_iff (B : Numerics) (parte : List Str) :
    (∃ e, buildHeader B parte = Except.error e) ↔ parte.length < 4 := by
  unfold buildHeader
  cases h : index parte 3 with
  | undefined =>
    have := (index_eq_undefined_iff parte 3).mp h
    constructor
    · intro _; omega
    · intro _; exact ⟨JSError.typeError, rfl⟩
  | null => exact absurd h (index_ne_null parte 3)
  | str s =>
    have hlen : ¬ parte.length ≤ 3 := by
      intro hle
      rw [(index_eq_undefined_iff parte 3).mpr hle] at h
      cases h
    constructor
    · rintro ⟨e, he⟩
      simp [toISODate] at he
    · intro hlt; omega

theorem parseStep_error_iff (B : Numerics) (acc : Parsed B) (l : Str) :
    (∃ e, parseStep B acc l = Except.error e) ↔
      (firstField l = tagE ∧ (split PIPE l).length < 4) := by
  rw [parseStep_eq, ← length_lineParts, ← buildHeader_error_iff B]
  by_cases hE : firstField l = tagE
  · simp only [hE, if_true, true_and]
    cases buildHeader B (lineParts l) with
    | error e => simp
    | ok h => simp
  · simp only [hE, if_false, false_and, iff_false, not_exists]
    intro e
    split_ifs <;> simp

/-- The loop raises exactly when some line is tagged `E` and has fewer than
four fields. -/
theorem parseLoop_error_iff (B : Numerics) (ls : List Str) :
    ∀ acc : Parsed B,
      (∃ e, parseLoop B acc ls = Except.error e) ↔
        ∃ l ∈ ls, firstField l = tagE ∧ (split PIPE l).length < 4 := by
  induction ls with
  | nil => intro acc; simp [parseLoop]
  | cons x rest ih =>
    intro acc
    simp only [parseLoop, List.mem_cons, exists_eq_or_imp]
    rw [← parseStep_error_iff B acc x]
    cases hx : parseStep B acc x with
    | error e => exact ⟨fun _ => Or.inl ⟨e, rfl⟩, fun _ => ⟨e, rfl⟩⟩
    | ok acc1 =>
      constructor
      · intro h; exact Or.inr ((ih acc1).mp h)
      · rintro (⟨e, he⟩ | h)
        · cases he
        · exact (ih acc1).mpr h

theorem filter_concat_pos {t : Str} (xs : List Str) {x : Str} (h : firstField x = t) :
    (xs ++ [x]).filter (fun l => firstField l == t) =
      xs.filter (fun l => firstField l == t) ++ [x] := by
  simp [List.filter_append, h]

theorem filter_concat_neg {t : Str} (xs : List Str) {x : Str} (h : firstField x ≠ t) :
    (xs ++ [x]).filter (fun l => firstField l == t) = xs.filter (fun l => firstField l == t) := by
  simp [List.filter_append, h]

theorem parseLoop_concat_ok (B : Numerics) (acc p : Parsed B) (xs : List Str) (x : Str)
    (h : parseLoop B acc (xs ++ [x]) = Except.ok p) :
    ∃ q, parseLoop B acc xs = Except.ok q ∧ parseStep B q x = Except.ok p := by
  rw [parseLoop_append] at h
  cases hq : parseLoop B acc xs with
  | error e => rw [hq] at h; cases h
  | ok q =>
    rw [hq] at h
    refine ⟨q, rfl, ?_⟩
    simp only [parseLoop] at h
    cases hs : parseStep B q x with
    | error e => rw [hs] at h; cases h
    | ok a => rw [hs] at h; exact h

/-- What the loop returns, field by field, in terms of the tagged lines. -/
theorem parseLoop_ok_spec (B : Numerics) (acc : Parsed B) (ls : List Str) :
    ∀ p, parseLoop B acc ls = Except.ok p →
      p.details = acc.details ++
          (ls.filter (fun l => firstField l == tagD)).map (fun l => buildDetail B (lineParts l)) ∧
      p.summary =
          (match (ls.filter (fun l => firstField l == tagS)).getLast? with
           | none => acc.summary
           | some l => some (buildSummary B (lineParts l))) ∧
      (match (ls.filter (fun l => firstField l == tagE)).getLast? with
       | none => p.header = acc.header
       | some l => ∃ h, buildHeader B (lineParts l) = Except.ok h ∧ p.header = some h) := by
  induction ls using List.reverseRecOn with
  | nil =>
    intro p hp
    simp only [parseLoop, Except.ok.injEq] at hp
    subst hp
    simp
  | append_singleton xs x ih =>
    intro p hp
    obtain ⟨q, hq, hs⟩ := parseLoop_concat_ok B acc p xs x hp
    obtain ⟨hd, hsum, hh⟩ := ih q hq
    rw [parseStep_eq] at hs
    by_cases hE : firstField x = tagE
    · have hD : firstField x ≠ tagD := fun h => tagE_ne_tagD (hE.symm.trans h)
      have hS : firstField x ≠ tagS := fun h => tagE_ne_tagS (hE.symm.trans h)
      rw [if_pos hE] at hs
      cases hb : buildHeader B (lineParts x) with
      | error e => rw [hb] at hs; cases hs
      | ok h =>
        rw [hb] at hs
        simp only [Except.ok.injEq] at hs
        subst hs
        rw [filter_concat_pos xs hE, filter_concat_neg xs hD, filter_concat_neg xs hS,
          List.getLast?_concat]
        exact ⟨hd, hsum, h, hb, rfl⟩
    · by_cases hD : firstField x = tagD
      · have hS : firstField x ≠ tagS := fun h => tagD_ne_tagS (hD.symm.trans h)
        rw [if_neg hE, if_pos hD] at hs
        simp only [Except.ok.injEq] at hs
        subst hs
        rw [filter_concat_neg xs hE, filter_concat_pos xs hD, filter_concat_neg xs hS]
        refine ⟨?_, hsum, hh⟩
        simp [hd]
      · by_cases hS : firstField x = tagS
        · rw [if_neg hE, if_neg hD, if_pos hS] at hs
          simp only [Except.ok.injEq] at hs
          subst hs
          rw [filter_concat_neg xs hE, filter_concat_neg xs hD, filter_concat_pos xs hS,
            List.getLast?_concat]
          exact ⟨hd, rfl, hh⟩
        · rw [if_neg hE, if_neg hD, if_neg hS] at hs
          simp only [Except.ok.injEq] at hs
          subst hs
          rw [filter_concat_neg xs hE, filter_concat_neg xs hD, filter_concat_neg xs hS]
          exact ⟨hd, hsum, hh⟩

/-- Lines with a tag other than `E`, `D`, `S` can be removed. -/
theorem parseLoop_remove_ignored (B : Numerics) (acc : Parsed B) (pre post : List Str) {l : Str}
    (hE : firstField l ≠ tagE) (hD : firstField l ≠ tagD) (hS : firstField l ≠ tagS) :
    parseLoop B acc (pre ++ l :: post) = parseLoop B acc (pre ++ post) := by
  rw [parseLoop_append, parseLoop_append]
  cases parseLoop B acc pre with
  | error e => rfl
  | ok q => simp [parseLoop, parseStep_ignored B q hE hD hS]

/-! ## Lemmas on the handler -/

theorem no_tagged_iff (t : Str) (ls : List Str) :
    (ls.filter (fun l => firstField l == t)).getLast? = none ↔ ¬ ∃ l ∈ ls, firstField l = t := by
  rw [List.getLast?_eq_none_iff, List.filter_eq_nil_iff]
  simp

/-- What `parseTxt` returns, field by field, in terms of the tagged lines of
the content. -/
theorem parseTxt_ok_spec (B : Numerics) (c : Str) (p : Parsed B)
    (hp : parseTxt B c = Except.ok p) :
    p.details = (taggedLines tagD c).map (fun l => buildDetail B (lineParts l)) ∧
    p.summary = ((taggedLines tagS c).getLast?).map (fun l => buildSummary B (lineParts l)) ∧
    (match (taggedLines tagE c).getLast? with
     | none => p.header = none
     | some l => ∃ h, buildHeader B (lineParts l) = Except.ok h ∧ p.header = some h) := by
  rw [parseTxt_eq] at hp
  obtain ⟨hd, hs, hh⟩ := parseLoop_ok_spec B _ (split LF c) p hp
  refine ⟨by simpa using hd, ?_, hh⟩
  rw [hs]
  unfold taggedLines
  cases (List.filter (fun l => firstField l == tagS) (split LF c)).getLast? <;> rfl

theorem parseTxt_error_iff (B : Numerics) (c : Str) :
    (∃ e, parseTxt B c = Except.error e) ↔
      ∃ l ∈ split LF c, firstField l = tagE ∧ (split PIPE l).length < 4 := by
  rw [parseTxt_eq]
  exact parseLoop_error_iff B (split LF c) _

theorem parseTxt_header_none_iff (B : Numerics) (c : Str) (p : Parsed B)
    (hp : parseTxt B c = Except.ok p) :
    p.header = none ↔ ¬ ∃ l ∈ split LF c, firstField l = tagE := by
  have hh := (parseTxt_ok_spec B c p hp).2.2
  rw [← no_tagged_iff]
  unfold taggedLines at hh
  cases hl : (List.filter (fun l => firstField l == tagE) (split LF c)).getLast? with
  | none => rw [hl] at hh; simpa using hh
  | some l =>
    rw [hl] at hh
    obtain ⟨h, _, hh⟩ := hh
    simp [hh]

theorem upload_of_error (B : Numerics) (engine : Engine B) (st : Storage B) (c : Str)
    (e : JSError) (hp : parseTxt B c = Except.error e) :
    upload B engine st c =
      { response := { status := 400, body := errorBody msgBadFormat }
        storage := st
        issued := [] } := by
  simp [upload, hp]

theorem upload_of_no_header (B : Numerics) (engine : Engine B) (st : Storage B) (c : Str)
    (p : Parsed B) (hp : parseTxt B c = Except.ok p) (hh : p.header = none) :
    upload B engine st c =
      { response := { status := 400, body := errorBody msgNoHeader }
        storage := st
        issued := [] } := by
  simp [upload, hp, hh]

theorem upload_of_header_error (B : Numerics) (engine : Engine B) (st : Storage B) (c : Str)
    (p : Parsed B) (h : Header B) (e : SqlError) (hp : parseTxt B c = Except.ok p)
    (hh : p.header = some h)
    (he : engine st (Query.insertNomina (paramsNomina h p)) = Except.error e) :
    upload B engine st c =
      { response := { status := 500, body := stepErrorBody stepNomina e }
        storage := st
        issued := [(Query.insertNomina (paramsNomina h p), Except.error e)] } := by
  simp [upload, hp, hh, he, Storage.apply]

theorem upload_of_header_ok (B : Numerics) (engine : Engine B) (st : Storage B) (c : Str)
    (p : Parsed B) (h : Header B) (id : Nat) (hp : parseTxt B c = Except.ok p)
    (hh : p.header = some h)
    (he : engine st (Query.insertNomina (paramsNomina h p)) = Except.ok id) :
    upload B engine st c =
      insertDetails engine
        { st with nomina := st.nomina ++ [(id, paramsNomina h p)] } id p.details
        [(Query.insertNomina (paramsNomina h p), Except.ok id)] := by
  simp [upload, hp, hh, he, Storage.apply]

theorem insertDetails_nil {B : Numerics} (engine : Engine B) (st : Storage B) (id : Nat)
    (log : List (Query B × Except SqlError Nat)) :
    insertDetails engine st id [] log =
      { response := { status := 200, body := successBody id 0 }
        storage := st
        issued := log } := by
  simp [insertDetails]

theorem insertDetails_error {B : Numerics} (engine : Engine B) (st : Storage B) (id : Nat)
    (details : List (Detail B)) (log : List (Query B × Except SqlError Nat)) (e : SqlError)
    (hd : details ≠ [])
    (he : engine st (Query.insertDetalle (details.map (detalleRow id))) = Except.error e) :
    insertDetails engine st id details log =
      { response := { status := 500, body := stepErrorBody stepDetalle e }
        storage := st
        issued := log ++ [(Query.insertDetalle (details.map (detalleRow id)), Except.error e)] } := by
  simp [insertDetails, hd, he, Storage.apply]

theorem insertDetails_ok {B : Numerics} (engine : Engine B) (st : Storage B) (id : Nat)
    (details : List (Detail B)) (log : List (Query B × Except SqlError Nat)) (k : Nat)
    (hd : details ≠ [])
    (he : engine st (Query.insertDetalle (details.map (detalleRow id))) = Except.ok k) :
    insertDetails engine st id details log =
      { response := { status := 200, body := successBody id details.length }
        storage := { st with detalle := st.detalle ++ details.map (detalleRow id) }
        issued := log ++ [(Query.insertDetalle (details.map (detalleRow id)), Except.ok k)] } := by
  simp [insertDetails, hd, he, Storage.apply]

theorem insertDetails_status {B : Numerics} (engine : Engine B) (st : Storage B) (id : Nat)
    (details : List (Detail B)) (log : List (Query B × Except SqlError Nat)) :
    (insertDetails engine st id details log).response.status ≠ 400 := by
  by_cases hd : details = []
  · subst hd
    rw [insertDetails_nil]; simp
  · cases he : engine st (Query.insertDetalle (details.map (detalleRow id))) with
    | error e => rw [insertDetails_error engine st id details log e hd he]; simp
    | ok k => rw [insertDetails_ok engine st id details log k hd he]; simp

theorem upload_status_of_header (B : Numerics) (engine : Engine B) (st : Storage B) (c : Str)
    (p : Parsed B) (h : Header B) (hp : parseTxt B c = Except.ok p) (hh : p.header = some h) :
    (upload B engine st c).response.status ≠ 400 := by
  cases he : engine st (Query.insertNomina (paramsNomina h p)) with
  | error e => rw [upload_of_header_error B engine st c p h e hp hh he]; simp
  | ok id =>
    rw [upload_of_header_ok B engine st c p h id hp hh he]
    exact insertDetails_status engine _ id p.details _

theorem msgBadFormat_ne : msgBadFormat ≠ msgNoHeader := by decide

/-! ## Theorems on the handler and on `parseTxt` -/

/-- C1: the handler answers 400 with the header-not-found error if and only
if no line of the content has `E` as its first trimmed pipe-delimited field,
and then it issues no statement and leaves the storage as it was.  (So a
content with an `E` line and no `D` line never gets that error.) -/
theorem upload_no_header_iff (B : Numerics) (engine : Engine B) (st : Storage B) (c : Str) :
    ((upload B engine st c).response = { status := 400, body := errorBody msgNoHeader } ↔
        ¬ ∃ l ∈ split LF c, firstField l = tagE) ∧
    ((¬ ∃ l ∈ split LF c, firstField l = tagE) →
        (upload B engine st c).issued = [] ∧ (upload B engine st c).storage = st) := by
  cases hp : parseTxt B c with
  | error e =>
    have hbad := (parseTxt_error_iff B c).mp ⟨e, hp⟩
    have hE : ∃ l ∈ split LF c, firstField l = tagE := by
      obtain ⟨l, hl, hE, _⟩ := hbad
      exact ⟨l, hl, hE⟩
    rw [upload_of_error B engine st c e hp]
    refine ⟨⟨fun h => ?_, fun h => absurd hE h⟩, fun h => absurd hE h⟩
    simp only [Response.mk.injEq, errorBody, true_and] at h
    have := msgBadFormat_ne
    simp_all
  | ok p =>
    have hiff := parseTxt_header_none_iff B c p hp
    cases hh : p.header with
    | none =>
      have hno := hiff.mp hh
      rw [upload_of_no_header B engine st c p hp hh]
      exact ⟨⟨fun _ => hno, fun _ => rfl⟩, fun _ => ⟨rfl, rfl⟩⟩
    | some h =>
      have hE : ¬ ¬ ∃ l ∈ split LF c, firstField l = tagE := by
        intro hno
        rw [hiff.mpr hno] at hh
        cases hh
      have hst := upload_status_of_header B engine st c p h hp hh
      refine ⟨⟨fun hr => ?_, fun hno => absurd hno hE⟩, fun hno => absurd hno hE⟩
      rw [hr] at hst
      exact absurd rfl hst

/-- C10: `parseTxt` raises if and only if some line of the content is tagged
`E` and has fewer than four pipe-delimited fields, and returns a result on
every other content; when it raises, the handler answers the generic 400
parse error, which is not the header-not-found error, issues no statement and
leaves the storage as it was. -/
theorem parseTxt_raises_iff (B : Numerics) (engine : Engine B) (st : Storage B) (c : Str) :
    ((∃ e, parseTxt B c = Except.error e) ↔
        ∃ l ∈ split LF c, firstField l = tagE ∧ (split PIPE l).length < 4) ∧
    ((¬ ∃ l ∈ split LF c, firstField l = tagE ∧ (split PIPE l).length < 4) →
        ∃ p, parseTxt B c = Except.ok p) ∧
    ((∃ l ∈ split LF c, firstField l = tagE ∧ (split PIPE l).length < 4) →
        (upload B engine st c).response = { status := 400, body := errorBody msgBadFormat } ∧
        (upload B engine st c).response ≠ { status := 400, body := errorBody msgNoHeader } ∧
        (upload B engine st c).issued = [] ∧ (upload B engine st c).storage = st) := by
  refine ⟨parseTxt_error_iff B c, fun hno => ?_, fun hbad => ?_⟩
  · cases hp : parseTxt B c with
    | error e => exact absurd ((parseTxt_error_iff B c).mp ⟨e, hp⟩) hno
    | ok p => exact ⟨p, rfl⟩
  · obtain ⟨e, hp⟩ := (parseTxt_error_iff B c).mpr hbad
    rw [upload_of_error B engine st c e hp]
    refine ⟨rfl, ?_, rfl, rfl⟩
    intro h
    simp only [Response.mk.injEq, errorBody, true_and] at h
    have := msgBadFormat_ne
    simp_all

theorem details_eq_nil_iff (B : Numerics) (c : Str) (p : Parsed B)
    (hp : parseTxt B c = Except.ok p) : p.details = [] ↔ taggedLines tagD c = [] := by
  rw [(parseTxt_ok_spec B c p hp).1, List.map_eq_nil_iff]

theorem body_lacks_numbers (step : Str) (e : SqlError) (n : Nat) :
    ¬ carriesNumber (stepErrorBody step e) n := by
  rintro ⟨key, hk⟩
  simp [stepErrorBody] at hk

/-- C2 (counterexample): on scenario 1 with an engine that accepts the header
insert with identifier 7 and rejects the detail insert, the body of the
response holds the number 7 in no field. -/
theorem detalle_failure_body_lacks_id :
    (upload symbolic engineFailDetalle emptyStorage scenario1).issued.map Prod.snd =
        [Except.ok 7, Except.error demoError] ∧
    ¬ carriesNumber (upload symbolic engineFailDetalle emptyStorage scenario1).response.body 7 := by
  refine ⟨rfl, ?_⟩
  have h : (upload symbolic engineFailDetalle emptyStorage scenario1).response.body =
      stepErrorBody stepDetalle demoError := rfl
  rw [h]
  exact body_lacks_numbers _ _ _

/-- C2 (amended): when the header insert succeeds with identifier `id` and the
detail bulk insert fails with error `e`, the response is 500 and its body has
exactly the fields `ok: false`, the detail-phase step tag and the storage error
message; no field of the body carries `id`. -/
theorem detalle_failure_response (B : Numerics) (engine : Engine B) (st : Storage B) (c : Str)
    (p : Parsed B) (h : Header B) (id : Nat) (e : SqlError)
    (hp : parseTxt B c = Except.ok p) (hh : p.header = some h)
    (h1 : engine st (Query.insertNomina (paramsNomina h p)) = Except.ok id)
    (hd : p.details ≠ [])
    (h2 : engine (st.apply (Query.insertNomina (paramsNomina h p)) (Except.ok id))
        (Query.insertDetalle (p.details.map (detalleRow id))) = Except.error e) :
    (upload B engine st c).response =
        { status := 500
          body := [("ok", Json.bool false), ("step", Json.str stepDetalle),
            ("error", Json.str (errorText e))] } ∧
    ¬ carriesNumber (upload B engine st c).response.body id := by
  simp only [Storage.apply] at h2
  rw [upload_of_header_ok B engine st c p h id hp hh h1,
    insertDetails_error engine _ id p.details _ e hd h2]
  exact ⟨rfl, body_lacks_numbers _ _ _⟩

/-- C2 (amended), at scenario 1 with the engine that rejects the detail
insert. -/
theorem detalle_failure_response_witness :
    (upload symbolic engineFailDetalle emptyStorage scenario1).response =
        { status := 500
          body := [("ok", Json.bool false), ("step", Json.str stepDetalle),
            ("error", Json.str (errorText demoError))] } ∧
    ¬ carriesNumber (upload symbolic engineFailDetalle emptyStorage scenario1).response.body 7 :=
  detalle_failure_response symbolic engineFailDetalle emptyStorage scenario1 scenario1Parsed
    scenario1Header 7 demoError rfl rfl rfl (by simp [scenario1Parsed]) rfl

/-- C3: for a parsed batch with a header, a failed header insert gives 500
with the body `ok: false`, the header-phase step tag `insert_nomina` and the
storage error message, the header insert being the only statement issued and
the storage unchanged; a successful header insert followed by a failed detail
insert gives 500 with the body `ok: false`, the detail-phase step tag
`insert_detalle` and the storage error message, those two statements being the
only ones issued and the batch row still in storage.  In every run, a failed
statement is the last statement issued. -/
theorem storage_failure_terminal (B : Numerics) (engine : Engine B) (st : Storage B) (c : Str) :
    (∀ (p : Parsed B) (h : Header B), parseTxt B c = Except.ok p → p.header = some h →
      (∀ e, engine st (Query.insertNomina (paramsNomina h p)) = Except.error e →
        (upload B engine st c).response =
            { status := 500
              body := [("ok", Json.bool false), ("step", Json.str "insert_nomina".toList),
                ("error", Json.str (errorText e))] } ∧
        (upload B engine st c).issued =
            [(Query.insertNomina (paramsNomina h p), Except.error e)] ∧
        (upload B engine st c).storage = st) ∧
      (∀ id e, engine st (Query.insertNomina (paramsNomina h p)) = Except.ok id →
        p.details ≠ [] →
        engine (st.apply (Query.insertNomina (paramsNomina h p)) (Except.ok id))
          (Query.insertDetalle (p.details.map (detalleRow id))) = Except.error e →
        (upload B engine st c).response =
            { status := 500
              body := [("ok", Json.bool false), ("step", Json.str "insert_detalle".toList),
                ("error", Json.str (errorText e))] } ∧
        (upload B engine st c).issued =
            [(Query.insertNomina (paramsNomina h p), Except.ok id),
             (Query.insertDetalle (p.details.map (detalleRow id)), Except.error e)] ∧
        (id, paramsNomina h p) ∈ (upload B engine st c).storage.nomina ∧
        (upload B engine st c).storage =
            { st with nomina := st.nomina ++ [(id, paramsNomina h p)] })) ∧
    (∀ before q e after,
      (upload B engine st c).issued = before ++ (q, Except.error e) :: after → after = []) := by
  constructor
  · intro p h hp hh
    constructor
    · intro e he
      rw [upload_of_header_error B engine st c p h e hp hh he]
      exact ⟨rfl, rfl, rfl⟩
    · intro id e h1 hd h2
      simp only [Storage.apply] at h2
      rw [upload_of_header_ok B engine st c p h id hp hh h1,
        insertDetails_error engine _ id p.details _ e hd h2]
      exact ⟨rfl, rfl, by simp, rfl⟩
  · intro before q e after hiss
    cases hp : parseTxt B c with
    | error e1 =>
      rw [upload_of_error B engine st c e1 hp] at hiss
      simp at hiss
    | ok p =>
      cases hh : p.header with
      | none =>
        rw [upload_of_no_header B engine st c p hp hh] at hiss
        simp at hiss
      | some h =>
        cases h1 : engine st (Query.insertNomina (paramsNomina h p)) with
        | error e1 =>
          rw [upload_of_header_error B engine st c p h e1 hp hh h1] at hiss
          have hlen := congrArg List.length hiss
          simp at hlen
          exact List.length_eq_zero.mp (by omega)
        | ok id =>
          rw [upload_of_header_ok B engine st c p h id hp hh h1] at hiss
          by_cases hd : p.details = []
          · rw [hd, insertDetails_nil] at hiss
            simp only at hiss
            cases before with
            | nil => simp at hiss
            | cons b bs =>
              have hlen := congrArg List.length hiss
              simp at hlen
          · cases h2 : engine (st.apply (Query.insertNomina (paramsNomina h p)) (Except.ok id))
                (Query.insertDetalle (p.details.map (detalleRow id))) with
            | error e2 =>
              simp only [Storage.apply] at h2
              rw [insertDetails_error engine _ id p.details _ e2 hd h2] at hiss
              simp only [List.singleton_append] at hiss
              cases before with
              | nil => simp at hiss
              | cons b bs =>
                have hlen := congrArg List.length hiss
                simp at hlen
                exact List.length_eq_zero.mp (by omega)
            | ok k =>
              simp only [Storage.apply] at h2
              rw [insertDetails_ok engine _ id p.details _ k hd h2] at hiss
              simp only [List.singleton_append] at hiss
              cases before with
              | nil => simp at hiss
              | cons b bs =>
                simp only [List.cons_append, List.cons.injEq] at hiss
                cases bs with
                | nil => simp at hiss
                | cons b2 bs2 =>
                  have hlen := congrArg List.length hiss.2
                  simp at hlen

/-- C3, at scenario 1: with the engine that rejects the header insert the
response carries the tag `insert_nomina` and only that insert is issued; with
the engine that rejects the detail insert the response carries the tag
`insert_detalle` and the batch row inserted under identifier 7 is still in
storage. -/
theorem storage_failure_terminal_witness :
    ((upload symbolic engineFailNomina emptyStorage scenario1).response =
        { status := 500
          body := [("ok", Json.bool false), ("step", Json.str "insert_nomina".toList),
            ("error", Json.str "Duplicate entry".toList)] } ∧
      (upload symbolic engineFailNomina emptyStorage scenario1).issued =
        [(Query.insertNomina (paramsNomina scenario1Header scenario1Parsed),
          Except.error demoError)] ∧
      (upload symbolic engineFailNomina emptyStorage scenario1).storage = emptyStorage) ∧
    ((upload symbolic engineFailDetalle emptyStorage scenario1).response =
        { status := 500
          body := [("ok", Json.bool false), ("step", Json.str "insert_detalle".toList),
            ("error", Json.str "Duplicate entry".toList)] } ∧
      (upload symbolic engineFailDetalle emptyStorage scenario1).issued =
        [(Query.insertNomina (paramsNomina scenario1Header scenario1Parsed), Except.ok 7),
         (Query.insertDetalle (scenario1Parsed.details.map (detalleRow 7)),
           Except.error demoError)] ∧
      (7, paramsNomina scenario1Header scenario1Parsed) ∈
        (upload symbolic engineFailDetalle emptyStorage scenario1).storage.nomina ∧
      (upload symbolic engineFailDetalle emptyStorage scenario1).storage =
        { emptyStorage with
          nomina :=
            emptyStorage.nomina ++ [(7, paramsNomina scenario1Header scenario1Parsed)] }) :=
  ⟨((storage_failure_terminal symbolic engineFailNomina emptyStorage scenario1).1
      scenario1Parsed scenario1Header rfl rfl).1 demoError rfl,
    ((storage_failure_terminal symbolic engineFailDetalle emptyStorage scenario1).1
      scenario1Parsed scenario1Header rfl rfl).2 7 demoError rfl
        (by simp [scenario1Parsed]) rfl⟩

theorem utf16Length_pos_iff (s : Str) : 0 < utf16Length s ↔ s ≠ [] := by
  cases s with
  | nil => simp [utf16Length]
  | cons c cs =>
    simp only [utf16Length, List.map_cons, List.sum_cons, ne_eq, reduceCtorEq, not_false_eq_true,
      iff_true]
    split_ifs <;> omega

theorem index_lineParts (l : Str) (i : Nat) :
    index (lineParts l) i =
      match (split PIPE l).get? i with
      | some f => JSVal.str (trim f)
      | none => JSVal.undefined := by
  unfold index lineParts
  rw [List.get?_eq_getElem?, List.get?_eq_getElem?, List.getElem?_map]
  cases (split PIPE l)[i]? <;> rfl

/-- The email written in the row of a `D` line is the one the specification
describes. -/
theorem correo_of_line (B : Numerics) (id : Nat) (l : Str) :
    (detalleRow id (buildDetail B (lineParts l))).correo = storedEmail l := by
  simp only [detalleRow, buildDetail, storedEmail, index_lineParts]
  cases (split PIPE l).get? 2 with
  | none => rfl
  | some f =>
    simp only [correoOrNull, utf16Length_pos_iff]
    by_cases hf : trim f = [] <;> simp [hf]

theorem storedEmail_ne_empty (l : Str) : storedEmail l ≠ JSVal.str [] := by
  unfold storedEmail
  cases (split PIPE l).get? 2 with
  | none => simp
  | some f =>
    by_cases hf : trim f = []
    · simp [hf]
    · simp [hf]

/-- C4: when the header insert succeeds with identifier `id`: with no `D`
line the header insert is the only statement issued and the response is 200
with the body `ok: true`, `nomina_id: id`, `registros_insertados: 0`;
otherwise exactly one bulk insert follows, whose rows are those of the `D`
lines in input order, one per line, each carrying `id`, and when it succeeds
the response is 200 with the body `ok: true`, `nomina_id: id` and
`registros_insertados` the number of `D` lines. -/
theorem upload_detail_phase (B : Numerics) (engine : Engine B) (st : Storage B) (c : Str)
    (p : Parsed B) (h : Header B) (id : Nat)
    (hp : parseTxt B c = Except.ok p) (hh : p.header = some h)
    (h1 : engine st (Query.insertNomina (paramsNomina h p)) = Except.ok id) :
    (taggedLines tagD c = [] →
      (upload B engine st c).issued =
          [(Query.insertNomina (paramsNomina h p), Except.ok id)] ∧
      (upload B engine st c).response =
          { status := 200
            body := [("ok", Json.bool true), ("nomina_id", Json.num id),
              ("registros_insertados", Json.num 0)] }) ∧
    (taggedLines tagD c ≠ [] →
      ∃ out,
        (upload B engine st c).issued =
          [(Query.insertNomina (paramsNomina h p), Except.ok id),
           (Query.insertDetalle
              ((taggedLines tagD c).map
                (fun l => detalleRow id (buildDetail B (lineParts l)))), out)] ∧
        (∀ r ∈ (taggedLines tagD c).map
            (fun l => detalleRow id (buildDetail B (lineParts l))), r.id_nomina = id) ∧
        (∀ k, out = Except.ok k →
          (upload B engine st c).response =
            { status := 200
              body := [("ok", Json.bool true), ("nomina_id", Json.num id),
                ("registros_insertados", Json.num (taggedLines tagD c).length)] })) := by
  have hdet := (parseTxt_ok_spec B c p hp).1
  have hmap : p.details.map (detalleRow id) =
      (taggedLines tagD c).map (fun l => detalleRow id (buildDetail B (lineParts l))) := by
    rw [hdet, List.map_map]; rfl
  have hlen : p.details.length = (taggedLines tagD c).length := by
    rw [hdet, List.length_map]
  rw [upload_of_header_ok B engine st c p h id hp hh h1]
  constructor
  · intro hnil
    rw [(details_eq_nil_iff B c p hp).mpr hnil, insertDetails_nil]
    exact ⟨rfl, rfl⟩
  · intro hne
    have hd : p.details ≠ [] := fun hd => hne ((details_eq_nil_iff B c p hp).mp hd)
    cases h2 : engine { st with nomina := st.nomina ++ [(id, paramsNomina h p)] }
        (Query.insertDetalle (p.details.map (detalleRow id))) with
    | error e =>
      rw [insertDetails_error engine _ id p.details _ e hd h2, hmap]
      refine ⟨Except.error e, rfl, ?_, ?_⟩
      · intro r hr
        obtain ⟨l, _, rfl⟩ := List.mem_map.mp hr
        rfl
      · intro k hk; cases hk
    | ok k =>
      rw [insertDetails_ok engine _ id p.details _ k hd h2, hmap, hlen]
      refine ⟨Except.ok k, rfl, ?_, ?_⟩
      · intro r hr
        obtain ⟨l, _, rfl⟩ := List.mem_map.mp hr
        rfl
      · intro k2 _; rfl

/-- C4, at scenario 1 with the engine that accepts both statements: two `D`
lines, so the response reports identifier 7 and count 2; and at the content
made of the `E` line of scenario 1 alone: only the header insert is issued
and the response reports identifier 7 and count 0. -/
theorem upload_detail_phase_witness :
    (taggedLines tagD scenario1 ≠ [] ∧
      ∃ out,
        (upload symbolic engineOk emptyStorage scenario1).issued =
          [(Query.insertNomina (paramsNomina scenario1Header scenario1Parsed), Except.ok 7),
           (Query.insertDetalle
              ((taggedLines tagD scenario1).map
                (fun l => detalleRow 7 (buildDetail symbolic (lineParts l)))), out)] ∧
        (∀ r ∈ (taggedLines tagD scenario1).map
            (fun l => detalleRow 7 (buildDetail symbolic (lineParts l))), r.id_nomina = 7) ∧
        (∀ k, out = Except.ok k →
          (upload symbolic engineOk emptyStorage scenario1).response =
            { status := 200
              body := [("ok", Json.bool true), ("nomina_id", Json.num 7),
                ("registros_insertados", Json.num (taggedLines tagD scenario1).length)] })) ∧
    (taggedLines tagD headerOnlyContent = [] ∧
      (upload symbolic engineOk emptyStorage headerOnlyContent).issued =
        [(Query.insertNomina (paramsNomina scenario1Header headerOnlyParsed), Except.ok 7)] ∧
      (upload symbolic engineOk emptyStorage headerOnlyContent).response =
        { status := 200
          body := [("ok", Json.bool true), ("nomina_id", Json.num 7),
            ("registros_insertados", Json.num 0)] }) :=
  ⟨⟨by decide,
      (upload_detail_phase symbolic engineOk emptyStorage scenario1 scenario1Parsed
        scenario1Header 7 rfl rfl rfl).2 (by decide)⟩,
    ⟨by decide,
      (upload_detail_phase symbolic engineOk emptyStorage headerOnlyContent headerOnlyParsed
        scenario1Header 7 rfl rfl rfl).1 (by decide)⟩⟩

/-- C5: for a content with a header, the record count of the batch row sent
to storage is the count parsed from field 1 of the last `S` line when the
content has an `S` line, whatever that count is, and the number of `D` lines
when it has none. -/
theorem record_count_precedence (B : Numerics) (engine : Engine B) (st : Storage B) (c : Str)
    (p : Parsed B) (h : Header B)
    (hp : parseTxt B c = Except.ok p) (hh : p.header = some h) :
    (∃ out rest,
      (upload B engine st c).issued = (Query.insertNomina (paramsNomina h p), out) :: rest) ∧
    (paramsNomina h p).cantidad_registros =
      (match (taggedLines tagS c).getLast? with
       | some l => B.parseInt10 (index (lineParts l) 1)
       | none => B.ofLength (taggedLines tagD c).length) := by
  obtain ⟨hdet, hsum, _⟩ := parseTxt_ok_spec B c p hp
  constructor
  · cases h1 : engine st (Query.insertNomina (paramsNomina h p)) with
    | error e =>
      rw [upload_of_header_error B engine st c p h e hp hh h1]
      exact ⟨_, _, rfl⟩
    | ok id =>
      rw [upload_of_header_ok B engine st c p h id hp hh h1]
      by_cases hd : p.details = []
      · rw [hd, insertDetails_nil]
        exact ⟨_, _, rfl⟩
      · cases h2 : engine { st with nomina := st.nomina ++ [(id, paramsNomina h p)] }
            (Query.insertDetalle (p.details.map (detalleRow id))) with
        | error e =>
          rw [insertDetails_error engine _ id p.details _ e hd h2]
          exact ⟨_, _, rfl⟩
        | ok k =>
          rw [insertDetails_ok engine _ id p.details _ k hd h2]
          exact ⟨_, _, rfl⟩
  · simp only [paramsNomina, cantidad, hsum]
    cases (taggedLines tagS c).getLast? with
    | none => simp [hdet]
    | some l => rfl

/-- C6: in every bulk insert the handler issues, the emails of the rows are,
line by line, those of the `D` lines of the content: absent (`null`) when
field 2 is missing or empty after trimming, the trimmed field 2 unchanged
otherwise; no row holds the empty string as email. -/
theorem stored_email (B : Numerics) (engine : Engine B) (st : Storage B) (c : Str)
    (values : List (DetalleRow B)) (out : Except SqlError Nat)
    (hq : (Query.insertDetalle values, out) ∈ (upload B engine st c).issued) :
    values.map (fun r => r.correo) = (taggedLines tagD c).map storedEmail ∧
    (∀ r ∈ values, r.correo ≠ JSVal.str []) := by
  have key : ∀ (p : Parsed B) (id : Nat), parseTxt B c = Except.ok p →
      values = p.details.map (detalleRow id) →
      values.map (fun r => r.correo) = (taggedLines tagD c).map storedEmail := by
    intro p id hp hv
    rw [hv, (parseTxt_ok_spec B c p hp).1, List.map_map, List.map_map]
    apply List.map_congr_left
    intro l _
    exact correo_of_line B id l
  have fin : values.map (fun r => r.correo) = (taggedLines tagD c).map storedEmail →
      values.map (fun r => r.correo) = (taggedLines tagD c).map storedEmail ∧
      (∀ r ∈ values, r.correo ≠ JSVal.str []) := by
    intro hm
    refine ⟨hm, fun r hr => ?_⟩
    have : r.correo ∈ (taggedLines tagD c).map storedEmail := by
      rw [← hm]; exact List.mem_map_of_mem _ hr
    obtain ⟨l, _, hl⟩ := List.mem_map.mp this
    rw [← hl]
    exact storedEmail_ne_empty l
  cases hp : parseTxt B c with
  | error e1 =>
    rw [upload_of_error B engine st c e1 hp] at hq
    simp at hq
  | ok p =>
    cases hh : p.header with
    | none =>
      rw [upload_of_no_header B engine st c p hp hh] at hq
      simp at hq
    | some h =>
      cases h1 : engine st (Query.insertNomina (paramsNomina h p)) with
      | error e1 =>
        rw [upload_of_header_error B engine st c p h e1 hp hh h1] at hq
        simp at hq
      | ok id =>
        rw [upload_of_header_ok B engine st c p h id hp hh h1] at hq
        by_cases hd : p.details = []
        · rw [hd, insertDetails_nil] at hq
          simp at hq
        · cases h2 : engine { st with nomina := st.nomina ++ [(id, paramsNomina h p)] }
              (Query.insertDetalle (p.details.map (detalleRow id))) with
          | error e2 =>
            rw [insertDetails_error engine _ id p.details _ e2 hd h2] at hq
            simp at hq
            exact fin (key p id hp hq.1)
          | ok k =>
            rw [insertDetails_ok engine _ id p.details _ k hd h2] at hq
            simp at hq
            exact fin (key p id hp hq.1)

/-- C6, at scenario 1: the first `D` line keeps its email, the second one,
whose field 2 is empty, gets `null`. -/
theorem stored_email_witness :
    (Query.insertDetalle (scenario1Parsed.details.map (detalleRow 7)), Except.ok 1) ∈
        (upload symbolic engineOk emptyStorage scenario1).issued ∧
    (scenario1Parsed.details.map (detalleRow 7)).map (fun r => r.correo) =
        [JSVal.str "a@x.com".toList, JSVal.null] ∧
    (∀ r ∈ scenario1Parsed.details.map (detalleRow 7), r.correo ≠ JSVal.str []) :=
  have hq : (Query.insertDetalle (scenario1Parsed.details.map (detalleRow 7)), Except.ok 1) ∈
      (upload symbolic engineOk emptyStorage scenario1).issued :=
    List.mem_cons_of_mem _ (List.mem_singleton.mpr rfl)
  ⟨hq,
    (stored_email symbolic engineOk emptyStorage scenario1 _ _ hq).1.trans (by decide),
    (stored_email symbolic engineOk emptyStorage scenario1 _ _ hq).2⟩

/-- C5, at a content whose `S` line declares 0 next to one `D` line: the
record count of the batch row is the declared one, not the number of `D`
lines. -/
theorem record_count_precedence_witness :
    parseTxt symbolic zeroCountContent = Except.ok zeroCountParsed ∧
    (paramsNomina zeroCountHeader zeroCountParsed).cantidad_registros =
      SymNum.parseInt10 (JSVal.str "0".toList) :=
  ⟨rfl,
    (record_count_precedence symbolic engineOk emptyStorage zeroCountContent zeroCountParsed
      zeroCountHeader rfl rfl).2.trans rfl⟩

/-- C9: when `parseTxt` returns, the header is the record built from the last
`E` line (null without one), the summary the record built from the last `S`
line (null without one), the details the records built from the `D` lines in
input order; a line with any other tag can be removed without changing the
result. -/
theorem parseTxt_result (B : Numerics) (c : Str) (p : Parsed B)
    (hp : parseTxt B c = Except.ok p) :
    (match (taggedLines tagE c).getLast? with
     | none => p.header = none
     | some l => ∃ h, buildHeader B (lineParts l) = Except.ok h ∧ p.header = some h) ∧
    p.summary = ((taggedLines tagS c).getLast?).map (fun l => buildSummary B (lineParts l)) ∧
    p.details = (taggedLines tagD c).map (fun l => buildDetail B (lineParts l)) ∧
    (∀ before l after c2, split LF c = before ++ l :: after →
      firstField l ≠ tagE → firstField l ≠ tagD → firstField l ≠ tagS →
      split LF c2 = before ++ after → parseTxt B c2 = Except.ok p) := by
  obtain ⟨hd, hs, hh⟩ := parseTxt_ok_spec B c p hp
  refine ⟨hh, hs, hd, ?_⟩
  intro before l after c2 hc hE hD hS hc2
  rw [parseTxt_eq, hc2, ← parseLoop_remove_ignored B _ before after hE hD hS, ← hc, ← parseTxt_eq]
  exact hp

/-- C9, at a content with a repeated `E` line and a line tagged `X`: the
result is that of scenario 1, and removing the `X` line gives the same. -/
theorem parseTxt_result_witness :
    parseTxt symbolic ignoredLineContent = Except.ok scenario1Parsed ∧
    scenario1Parsed.details =
      (taggedLines tagD ignoredLineContent).map (fun l => buildDetail symbolic (lineParts l)) ∧
    parseTxt symbolic withoutIgnoredLine = Except.ok scenario1Parsed :=
  ⟨rfl,
    (parseTxt_result symbolic ignoredLineContent scenario1Parsed rfl).2.2.1,
    (parseTxt_result symbolic ignoredLineContent scenario1Parsed rfl).2.2.2
      ["E|9|OLD|01/01/2020|1|X".toList] "X|ignored|line".toList
      (split LF scenario1) withoutIgnoredLine
      rfl (by decide) (by decide) (by decide) rfl⟩

/-- C1, at a content with `D` and `S` lines and no `E` line: nothing is sent
to storage. -/
theorem upload_no_header_iff_witness :
    (¬ ∃ l ∈ split LF noHeaderContent, firstField l = tagE) ∧
    (upload symbolic engineOk emptyStorage noHeaderContent).issued = [] ∧
    (upload symbolic engineOk emptyStorage noHeaderContent).storage = emptyStorage :=
  ⟨by decide, (upload_no_header_iff symbolic engineOk emptyStorage noHeaderContent).2 (by decide)⟩

/-- C10, at a content with a complete `E` line followed by an `E` line of
three fields: the generic parse error, nothing sent to storage. -/
theorem parseTxt_raises_iff_witness :
    (∃ l ∈ split LF shortHeaderContent, firstField l = tagE ∧ (split PIPE l).length < 4) ∧
    (upload symbolic engineOk emptyStorage shortHeaderContent).response =
        { status := 400, body := errorBody msgBadFormat } ∧
    (upload symbolic engineOk emptyStorage shortHeaderContent).response ≠
        { status := 400, body := errorBody msgNoHeader } ∧
    (upload symbolic engineOk emptyStorage shortHeaderContent).issued = [] ∧
    (upload symbolic engineOk emptyStorage shortHeaderContent).storage = emptyStorage :=
  ⟨by decide,
    (parseTxt_raises_iff symbolic engineOk emptyStorage shortHeaderContent).2.2 (by decide)⟩

/-! ## White-space invariance -/

theorem parseLoop_eq_docLoop (B : Numerics) (ls : List Str) :
    ∀ acc : Parsed B, parseLoop B acc ls = docLoop B acc (ls.map (split PIPE)) := by
  induction ls with
  | nil => intro acc; rfl
  | cons l rest ih =>
    intro acc
    simp only [parseLoop, List.map_cons, docLoop]
    show (match dispatch B acc ((split PIPE l).map trim) with
      | Except.error e => Except.error e
      | Except.ok acc1 => parseLoop B acc1 rest) = _
    cases dispatch B acc ((split PIPE l).map trim) with
    | error e => rfl
    | ok acc1 => exact ih acc1

theorem parseTxt_eq_docLoop (B : Numerics) (c : Str) :
    parseTxt B c = docLoop B { header := none, details := [], summary := none } (rawDoc c) := by
  rw [parseTxt_eq, parseLoop_eq_docLoop]
  rfl

theorem docLoop_append (B : Numerics) (xs ys : List (List Str)) :
    ∀ acc : Parsed B,
      docLoop B acc (xs ++ ys) =
        match docLoop B acc xs with
        | Except.error e => Except.error e
        | Except.ok acc1 => docLoop B acc1 ys := by
  induction xs with
  | nil => intro acc; rfl
  | cons x rest ih =>
    intro acc
    simp only [List.cons_append, docLoop]
    cases dispatch B acc (x.map trim) with
    | error e => rfl
    | ok acc1 => exact ih acc1

theorem dispatch_blank (B : Numerics) (acc : Parsed B) {w : Str}
    (hw : allWhiteSpace w = true) : dispatch B acc ([w].map trim) = Except.ok acc := by
  simp only [List.map_cons, List.map_nil, trim_of_all hw]
  rfl

/-- One white-space edit does not change what the loop returns. -/
theorem docLoop_edit (B : Numerics) {d1 d2 : List (List Str)} (h : WsEdit d1 d2) :
    ∀ acc : Parsed B, docLoop B acc d2 = docLoop B acc d1 := by
  intro acc
  cases h with
  | blankLine before after w hw =>
    rw [docLoop_append, docLoop_append]
    cases docLoop B acc before with
    | error e => rfl
    | ok acc1 => simp only [docLoop, dispatch_blank B acc1 hw]
  | padField before after left right f w1 w2 h1 h2 =>
    rw [docLoop_append, docLoop_append]
    cases docLoop B acc before with
    | error e => rfl
    | ok acc1 =>
      simp only [docLoop, List.map_append, List.map_cons, trim_pad h1 h2]

theorem parseLoop_pad_line (B : Numerics) (before after : List Str) (l : Str) {w1 w2 : Str}
    (h1 : allWhiteSpace w1 = true) (h2 : allWhiteSpace w2 = true) :
    ∀ acc : Parsed B,
      parseLoop B acc (before ++ (w1 ++ l ++ w2) :: after) =
        parseLoop B acc (before ++ l :: after) := by
  intro acc
  rw [parseLoop_append, parseLoop_append]
  cases parseLoop B acc before with
  | error e => rfl
  | ok q => simp only [parseLoop, parseStep, lineParts_pad h1 h2]

/-- C8: a content obtained from another by white-space edits (inserting empty
or white-space-only lines, surrounding pipe-delimited fields with white space,
any number of times) gets the same result from `parseTxt`: the same header,
details and summary when it returns, and it raises when the other does.  The
same holds for a content obtained by surrounding a whole line with white
space. -/
theorem parseTxt_ws_invariant (B : Numerics) (c c2 : Str) :
    (Relation.ReflTransGen WsEdit (rawDoc c) (rawDoc c2) → parseTxt B c2 = parseTxt B c) ∧
    (∀ before l after w1 w2, allWhiteSpace w1 = true → allWhiteSpace w2 = true →
      split LF c = before ++ l :: after →
      split LF c2 = before ++ (w1 ++ l ++ w2) :: after →
      parseTxt B c2 = parseTxt B c) := by
  constructor
  · intro h
    rw [parseTxt_eq_docLoop, parseTxt_eq_docLoop]
    generalize rawDoc c2 = d2 at h
    induction h with
    | refl => rfl
    | tail _ hstep ih => rw [docLoop_edit B hstep, ih]
  · intro before l after w1 w2 h1 h2 hc hc2
    rw [parseTxt_eq, parseTxt_eq, hc, hc2]
    exact parseLoop_pad_line B before after l h1 h2 _

/-- C8, at scenario 1: blanks around the first line, an empty line and a line
of blanks are four white-space edits, and the result is unchanged. -/
theorem parseTxt_ws_invariant_witness :
    Relation.ReflTransGen WsEdit (rawDoc scenario1) (rawDoc paddedScenario1) ∧
    parseTxt symbolic paddedScenario1 = Except.ok scenario1Parsed :=
  have s1 : WsEdit (rawDoc scenario1)
      (("  E ".toList :: (split PIPE "101202123|BHD|15/03/2024|50000.00|CTA001".toList)) ::
        rawDoc scenario1Tail) :=
    WsEdit.padField [] (rawDoc scenario1Tail) []
      (split PIPE "101202123|BHD|15/03/2024|50000.00|CTA001".toList)
      "E".toList "  ".toList " ".toList rfl rfl
  have s2 : WsEdit
      (("  E ".toList :: (split PIPE "101202123|BHD|15/03/2024|50000.00|CTA001".toList)) ::
        rawDoc scenario1Tail)
      ((split PIPE "  E |101202123|BHD|15/03/2024|50000.00|CTA001 ".toList) ::
        rawDoc scenario1Tail) :=
    WsEdit.padField [] (rawDoc scenario1Tail)
      (split PIPE "  E |101202123|BHD|15/03/2024|50000.00".toList) []
      "CTA001".toList [] " ".toList rfl rfl
  have s3 : WsEdit
      ((split PIPE "  E |101202123|BHD|15/03/2024|50000.00|CTA001 ".toList) ::
        rawDoc scenario1Tail)
      ((split PIPE "  E |101202123|BHD|15/03/2024|50000.00|CTA001 ".toList) ::
        ["   ".toList] :: rawDoc scenario1Tail) :=
    WsEdit.blankLine [split PIPE "  E |101202123|BHD|15/03/2024|50000.00|CTA001 ".toList]
      (rawDoc scenario1Tail) "   ".toList rfl
  have s4 : WsEdit
      ((split PIPE "  E |101202123|BHD|15/03/2024|50000.00|CTA001 ".toList) ::
        ["   ".toList] :: rawDoc scenario1Tail)
      (rawDoc paddedScenario1) :=
    WsEdit.blankLine [split PIPE "  E |101202123|BHD|15/03/2024|50000.00|CTA001 ".toList]
      (["   ".toList] :: rawDoc scenario1Tail) [] rfl
  have h : Relation.ReflTransGen WsEdit (rawDoc scenario1) (rawDoc paddedScenario1) :=
    (((Relation.ReflTransGen.single s1).tail s2).tail s3).tail s4
  ⟨h, ((parseTxt_ws_invariant symbolic scenario1 paddedScenario1).1 h).trans rfl⟩

/-! ## `toISODate` on well-formed dates -/

theorem split_cons_sep {sep : Char} {a : Str} (h : sep ∉ a) (b : Str) :
    split sep (a ++ sep :: b) = a :: split sep b := by
  cases hb : split sep (sep :: b) with
  | nil => exact absurd hb (split_ne_nil sep _)
  | cons x xs =>
    rw [split_append_left h hb]
    simp only [split, if_true, List.cons.injEq] at hb
    rw [← hb.1, ← hb.2]
    simp

theorem trimEnd_of_no_ws {s : Str} (h : ∀ c ∈ s, isWhiteSpace c = false) : trimEnd s = s := by
  induction s with
  | nil => rfl
  | cons c cs ih =>
    have hc := h c (List.mem_cons_self c cs)
    have hcs := ih (fun x hx => h x (List.mem_cons_of_mem c hx))
    simp only [trimEnd, hcs]
    cases cs with
    | nil => simp [hc]
    | cons r rs => rfl

theorem digits_no_ws {s : Str} (h : allDigits s = true) : ∀ c ∈ s, isWhiteSpace c = false := by
  intro c hc
  simp only [allDigits, List.all_eq_true] at h
  exact isWhiteSpace_of_digit (h c hc)

theorem trim_of_digits {s : Str} (h : allDigits s = true) : trim s = s := by
  have hws := digits_no_ws h
  unfold trim
  cases s with
  | nil => rfl
  | cons c cs =>
    have hc := hws c (List.mem_cons_self c cs)
    simp only [trimStart, hc, Bool.false_eq_true, if_false]
    exact trimEnd_of_no_ws hws

theorem utf16Length_of_digits {s : Str} (h : allDigits s = true) : utf16Length s = s.length := by
  induction s with
  | nil => rfl
  | cons c cs ih =>
    simp only [allDigits, List.all_cons, Bool.and_eq_true] at h
    have hc : c.toNat < 0x10000 := by
      have := h.1
      simp only [isDecimalDigit, Bool.and_eq_true, decide_eq_true_eq] at this
      omega
    have := ih (by simpa [allDigits] using h.2)
    simp only [utf16Length, List.map_cons, List.sum_cons, hc, if_true, List.length_cons] at this ⊢
    omega

theorem padStart_of_digits {s : Str} (h : allDigits s = true)
    (hl : s.length = 1 ∨ s.length = 2) : padStart s 2 ZERO = zeroPad2 s := by
  unfold padStart zeroPad2
  rw [utf16Length_of_digits h]
  rcases hl with hl | hl <;> simp [hl, List.replicate]

theorem slash_not_mem_padded {w1 s w2 : Str} (h1 : allWhiteSpace w1 = true)
    (hs : allDigits s = true) (h2 : allWhiteSpace w2 = true) : SLASH ∉ w1 ++ s ++ w2 := by
  simp only [List.mem_append, not_or]
  refine ⟨⟨not_mem_of_all isWhiteSpace_SLASH h1, ?_⟩, not_mem_of_all isWhiteSpace_SLASH h2⟩
  intro hmem
  simp only [allDigits, List.all_eq_true] at hs
  exact ne_SLASH_of_digit (hs SLASH hmem) rfl

theorem trim_padded_digits {w1 s w2 : Str} (h1 : allWhiteSpace w1 = true)
    (hs : allDigits s = true) (h2 : allWhiteSpace w2 = true) : trim (w1 ++ s ++ w2) = s := by
  rw [trim_pad h1 h2, trim_of_digits hs]

/-- C7: on `day/month/year` with a day and a month of one or two decimal
digits, a year of four, and optional white space around each component,
`toISODate` returns the year unchanged, a hyphen, the month and a hyphen and
the day, both left-padded with `0` to exactly two characters; the digits are
not checked against the calendar. -/
theorem toISODate_wellformed (d m y w1 w2 w3 w4 w5 w6 : Str)
    (hd : allDigits d = true) (hdl : d.length = 1 ∨ d.length = 2)
    (hm : allDigits m = true) (hml : m.length = 1 ∨ m.length = 2)
    (hy : allDigits y = true) (hyl : y.length = 4)
    (h1 : allWhiteSpace w1 = true) (h2 : allWhiteSpace w2 = true)
    (h3 : allWhiteSpace w3 = true) (h4 : allWhiteSpace w4 = true)
    (h5 : allWhiteSpace w5 = true) (h6 : allWhiteSpace w6 = true) :
    toISODate (JSVal.str
        ((w1 ++ d ++ w2) ++ SLASH :: ((w3 ++ m ++ w4) ++ SLASH :: (w5 ++ y ++ w6)))) =
      Except.ok (y ++ [DASH] ++ zeroPad2 m ++ [DASH] ++ zeroPad2 d) ∧
    (zeroPad2 m).length = 2 ∧ (zeroPad2 d).length = 2 ∧ y.length = 4 := by
  refine ⟨?_, ?_, ?_, hyl⟩
  · simp only [toISODate]
    rw [split_cons_sep (slash_not_mem_padded h1 hd h2),
      split_cons_sep (slash_not_mem_padded h3 hm h4),
      split_of_not_mem (slash_not_mem_padded h5 hy h6)]
    simp only [List.map_cons, List.map_nil, trim_padded_digits h1 hd h2,
      trim_padded_digits h3 hm h4, trim_padded_digits h5 hy h6, index, List.get?, toStr,
      padStart_of_digits hd hdl, padStart_of_digits hm hml]
  · unfold zeroPad2; rcases hml with h | h <;> simp [h]
  · unfold zeroPad2; rcases hdl with h | h <;> simp [h]

/-- C7, at `31/02/2024`, which is no calendar date, and at ` 5 /3/ 2024`. -/
theorem toISODate_wellformed_witness :
    toISODate (JSVal.str "31/02/2024".toList) = Except.ok "2024-02-31".toList ∧
    toISODate (JSVal.str " 5 /3/ 2024".toList) = Except.ok "2024-03-05".toList :=
  ⟨(toISODate_wellformed "31".toList "02".toList "2024".toList [] [] [] [] [] []
      rfl (Or.inr rfl) rfl (Or.inr rfl) rfl rfl rfl rfl rfl rfl rfl rfl).1,
    (toISODate_wellformed "5".toList "3".toList "2024".toList " ".toList " ".toList [] []
      " ".toList [] rfl (Or.inl rfl) rfl (Or.inl rfl) rfl rfl rfl rfl rfl rfl rfl rfl).1⟩

end PayrollUpload
